import Mathlib

/-!
# Verification of the biblioteca document-library client

Shallow embedding of the client-side filtering/derivation engine, the
sidebar filter-state handlers, the upload size gate and the preview
classification of the `jhosscy/biblioteca` repository, together with
proofs of the specified properties.

Modelling conventions:
* JavaScript strings are Lean `String`s; the case-insensitive substring
  matching of the search stage is embedded over `List Char`
  (`String.data`) because it must be executable.
* `dateAdded` is stored as an ISO string in the source and is always
  consumed through `new Date(s).getTime()`; we embed it directly as the
  resulting epoch-millisecond integer (`Int`).  `Date` parsing is
  injective and order-preserving on valid ISO instants, so every
  comparison made by the source is represented faithfully.
* `Array.prototype.sort` (ES2019+) is a stable sort by the comparator
  `(a, b) => dateB - dateA`; a stable sort for a total preorder has a
  unique result, so we embed it as `List.insertionSort` for the
  decidable total preorder `dateGE` and prove the stability property.
* The local-time "start of the current day" computed by
  `new Date(y, m, d).getTime()` is an ambient quantity; it enters the
  embedding as an explicit integer parameter `startOfToday`.
-/

/-! ## JavaScript string primitives -/

/-- `listStartsWith s p` embeds "the char list `s` starts with `p`"
(helper for `String.prototype.includes` / `endsWith`). -/
def listStartsWith : List Char → List Char → Bool
  | _, [] => true
  | [], _ :: _ => false
  | c :: s, d :: p => c == d && listStartsWith s p

/-- `containsSub s sub` embeds `s.includes(sub)` (substring containment)
on char lists. -/
def containsSub : List Char → List Char → Bool
  | [], sub => listStartsWith [] sub
  | c :: s, sub => listStartsWith (c :: s) sub || containsSub s sub

/-- `jsIncludes s sub` embeds `String.prototype.includes`. -/
def jsIncludes (s sub : String) : Bool :=
  containsSub s.data sub.data

/-- `jsEndsWith s suffix` embeds `String.prototype.endsWith`. -/
def jsEndsWith (s suffix : String) : Bool :=
  listStartsWith s.data.reverse suffix.data.reverse

/-- `jsToLower s` embeds `String.prototype.toLowerCase` (the searchable
text of this application is ASCII, where `Char.toLower` agrees with the
JavaScript function). -/
def jsToLower (s : String) : List Char :=
  s.data.map Char.toLower

/-! ## Data model (src/types.ts as consumed by App.tsx)

`transformSupabaseDocument` (documentService.ts, lines 9-22) normalises
every record entering client state: `tags` to an array, `category` to a
string (`record.category || ''`, so the empty string means "absent"),
`storagePath` left possibly undefined (absent for articles). -/

structure Document where
  id : Nat
  title : String
  type : String
  tags : List String
  /-- epoch-millisecond value of `new Date(dateAdded).getTime()`. -/
  dateAdded : Int
  favorite : Bool
  /-- `""` means empty/absent (`record.category || ''`). -/
  category : String
  backgroundColor : String
  content : Option String
  storagePath : Option String
deriving DecidableEq

/-- `CurrentSection` union type (src/types.ts, used by App.tsx/Navbar). -/
inductive CurrentSection where
  | files
  | articles
  | favorites
  | recent
deriving DecidableEq

/-- The `timeframe` field of `FilterOptions`. -/
inductive Timeframe where
  | all
  | today
  | thisWeek
  | thisMonth
deriving DecidableEq

/-- `FilterOptions` (src/types.ts; state initialised in App.tsx 29-34). -/
structure FilterOptions where
  types : List String
  categories : List String
  timeframe : Timeframe
  tags : List String
deriving DecidableEq

/-- The initial filter state of App.tsx (lines 29-34), also the state
restored by the sidebar "Clear all filters" button. -/
def defaultFilters : FilterOptions :=
  { types := [], categories := [], timeframe := .all, tags := [] }

/-! ## The filter pipeline (App.tsx useEffect, lines 43-115) -/

/-- The ordering used by the `recent` comparator
`(a, b) => new Date(b.dateAdded).getTime() - new Date(a.dateAdded).getTime()`:
`a` may precede `b` iff `a.dateAdded ≥ b.dateAdded`. -/
def dateGE (a b : Document) : Prop :=
  b.dateAdded ≤ a.dateAdded

instance : DecidableRel dateGE :=
  fun a b => inferInstanceAs (Decidable (b.dateAdded ≤ a.dateAdded))

instance : IsTotal Document dateGE :=
  ⟨fun a b => Int.le_total b.dateAdded a.dateAdded⟩

instance : IsTrans Document dateGE :=
  ⟨fun _ _ _ h h2 => Int.le_trans h2 h⟩

/-- Stable descending sort by `dateAdded` — the embedding of
`filtered.sort((a, b) => new Date(b.dateAdded).getTime() - new Date(a.dateAdded).getTime())`
(App.tsx 53-55).  ES2019 `Array.prototype.sort` is stable, and a stable
sort for a decidable total preorder is unique, so insertion sort (stable
by construction, proved below) is an exact embedding. -/
def sortByDateDesc (docs : List Document) : List Document :=
  List.insertionSort dateGE docs

/-- Section stage (App.tsx 47-56): `favorites` keeps favourites,
`articles` keeps `type === 'article'`, `recent` sorts by date descending
and keeps the first 6, `files` matches no branch and is the identity. -/
def applySection : CurrentSection → List Document → List Document
  | .favorites, docs => docs.filter (fun d => d.favorite)
  | .articles, docs => docs.filter (fun d => d.type == "article")
  | .recent, docs => (sortByDateDesc docs).take 6
  | .files, docs => docs

/-- Search predicate (App.tsx 61-65): case-insensitive substring match
on title, any tag, or category; `doc.category && ...` makes an
empty/absent category never match. -/
def matchesQuery (query : String) (d : Document) : Bool :=
  let q := jsToLower query
  containsSub (jsToLower d.title) q
    || d.tags.any (fun tag => containsSub (jsToLower tag) q)
    || (d.category != "" && containsSub (jsToLower d.category) q)

/-- Search stage (App.tsx 59-66); `if (searchQuery)` is JS string
truthiness, i.e. the stage runs only for a non-empty query. -/
def applySearch (query : String) (docs : List Document) : List Document :=
  if query != "" then docs.filter (matchesQuery query) else docs

/-- Type-filter stage (App.tsx 69-73). -/
def applyTypes (types : List String) (docs : List Document) : List Document :=
  if types.length > 0 then
    docs.filter (fun d => types.contains d.type || types.contains "all")
  else docs

/-- Category-filter stage (App.tsx 76-82); `!doc.category` is string
falsiness, i.e. `d.category == ""` after normalisation. -/
def applyCategories (categories : List String) (docs : List Document) :
    List Document :=
  if categories.length > 0 then
    docs.filter (fun d =>
      categories.contains d.category || categories.contains "all"
        || (categories.contains "uncategorized" && d.category == ""))
  else docs

/-- Tag-filter stage (App.tsx 85-89): OR semantics over selected tags. -/
def applyTags (tags : List String) (docs : List Document) : List Document :=
  if tags.length > 0 then
    docs.filter (fun d => d.tags.any (fun tag => tags.contains tag))
  else docs

/-- Milliseconds per day, `24 * 60 * 60 * 1000`. -/
def msPerDay : Int := 24 * 60 * 60 * 1000

/-- Timeframe stage (App.tsx 92-112).  `startOfToday` is the value of
`new Date(now.getFullYear(), now.getMonth(), now.getDate()).getTime()` —
the start of the current calendar day in local time — passed explicitly.
`today` keeps `docDate >= today`; `thisWeek` and `thisMonth` subtract
fixed windows of `7` resp. `30` days. -/
def applyTimeframe (tf : Timeframe) (startOfToday : Int)
    (docs : List Document) : List Document :=
  match tf with
  | .all => docs
  | .today => docs.filter (fun d => decide (startOfToday ≤ d.dateAdded))
  | .thisWeek =>
      docs.filter (fun d => decide (startOfToday - 7 * msPerDay ≤ d.dateAdded))
  | .thisMonth =>
      docs.filter (fun d => decide (startOfToday - 30 * msPerDay ≤ d.dateAdded))

/-- The whole filtering effect of App.tsx (lines 43-115): section, then
search, then type, category and tag filters, then the timeframe filter.
The source first copies the input (`[...documents]`), so the input list
is never mutated; with Lean value semantics this is automatic. -/
def filterDocuments (docs : List Document) (section_ : CurrentSection)
    (query : String) (opts : FilterOptions) (startOfToday : Int) :
    List Document :=
  applyTimeframe opts.timeframe startOfToday
    (applyTags opts.tags
      (applyCategories opts.categories
        (applyTypes opts.types
          (applySearch query
            (applySection section_ docs)))))

/-! ## Derived collections (App.tsx 208-222)

`[...new Set(xs)]` iterates a JS `Set` in insertion order, i.e. it keeps
the first occurrence of each value.  `dedupFirst` embeds it with an
explicit `seen` accumulator so that it stays structurally recursive. -/

/-- First-occurrence deduplication with accumulator (the elements of
`seen` are dropped). -/
def dedupFirstAux (seen : List String) : List String → List String
  | [] => []
  | x :: rest =>
      if x ∈ seen then dedupFirstAux seen rest
      else x :: dedupFirstAux (x :: seen) rest

/-- `[...new Set(l)]`: distinct values of `l` in first-seen order. -/
def dedupFirst (l : List String) : List String :=
  dedupFirstAux [] l

/-- Index of the first occurrence of `a` in a list (length of the list
when absent); used to state "first-seen order". -/
def idx (a : String) : List String → Nat
  | [] => 0
  | x :: rest => if x = a then 0 else idx a rest + 1

/-- The `categories` intermediate of `getAvailableCategories`
(App.tsx 209-211): `documents.map(doc => doc.category).filter(Boolean)` —
the non-empty categories, with multiplicity, in document order. -/
def rawCategories (documents : List Document) : List String :=
  (documents.map (fun d => d.category)).filter (fun c => c != "")

/-- The `tags` intermediate of `getAvailableTags` (App.tsx 219):
`documents.flatMap(doc => doc.tags)`. -/
def rawTags (documents : List Document) : List String :=
  (documents.map (fun d => d.tags)).flatten

/-- `getAvailableCategories` (App.tsx 208-215): the non-empty categories
(`filter(Boolean)`), deduplicated in first-seen order (`new Set`),
wrapped in the sentinels `'all'` and `'uncategorized'`. -/
def getAvailableCategories (documents : List Document) : List String :=
  "all" :: dedupFirst (rawCategories documents) ++ ["uncategorized"]

/-- `getAvailableTags` (App.tsx 218-222): all tags across all documents,
deduplicated in first-seen order. -/
def getAvailableTags (documents : List Document) : List String :=
  dedupFirst (rawTags documents)

/-! ## Sidebar filter handlers (Sidebar.tsx 49-115 and 253-258) -/

/-- `handleTypeChange` (Sidebar.tsx 49-70). -/
def handleTypeChange (typeId : String) (checked : Bool)
    (f : FilterOptions) : FilterOptions :=
  if typeId = "all" then
    { f with types := if checked then ["all"] else [] }
  else
    let updatedTypes := f.types.filter (fun t => t != "all")
    if checked then { f with types := updatedTypes ++ [typeId] }
    else { f with types := updatedTypes.filter (fun t => t != typeId) }

/-- `handleCategoryChange` (Sidebar.tsx 73-94). -/
def handleCategoryChange (category : String) (checked : Bool)
    (f : FilterOptions) : FilterOptions :=
  if category = "all" then
    { f with categories := if checked then ["all"] else [] }
  else
    let updatedCategories := f.categories.filter (fun c => c != "all")
    if checked then { f with categories := updatedCategories ++ [category] }
    else { f with categories := updatedCategories.filter (fun c => c != category) }

/-- `handleTimeChange` (Sidebar.tsx 97-102). -/
def handleTimeChange (timeId : Timeframe) (f : FilterOptions) : FilterOptions :=
  { f with timeframe := timeId }

/-- `handleTagClick` (Sidebar.tsx 105-115). -/
def handleTagClick (tag : String) (f : FilterOptions) : FilterOptions :=
  if f.tags.contains tag then { f with tags := f.tags.filter (fun t => t != tag) }
  else { f with tags := f.tags ++ [tag] }

/-- One user interaction with the sidebar filter controls. -/
inductive FilterEvent where
  | typeChange (typeId : String) (checked : Bool)
  | categoryChange (category : String) (checked : Bool)
  | timeChange (timeId : Timeframe)
  | tagClick (tag : String)
  /-- The "Clear all filters" button (Sidebar.tsx 253-258). -/
  | clearAll

/-- Dispatch of a sidebar event to its handler. -/
def stepFilters (f : FilterOptions) : FilterEvent → FilterOptions
  | .typeChange typeId checked => handleTypeChange typeId checked f
  | .categoryChange category checked => handleCategoryChange category checked f
  | .timeChange timeId => handleTimeChange timeId f
  | .tagClick tag => handleTagClick tag f
  | .clearAll => defaultFilters

/-- The filter state reached from the initial App.tsx state after a
sequence of sidebar events. -/
def runFilters (events : List FilterEvent) : FilterOptions :=
  events.foldl stepFilters defaultFilters

/-! ## Upload (documentService.ts 259-337 and UploadModal onDrop) -/

/-- The browser `File` as consumed by the upload path: `name`, MIME
`type`, and `size` in bytes. -/
structure BrowserFile where
  name : String
  type : String
  size : Nat
deriving DecidableEq

/-- `MAX_FILE_SIZE` — `10 * 1024 * 1024` bytes, declared both in
documentService.ts (line 6) and in UploadModal (line 16). -/
def MAX_FILE_SIZE : Nat := 10 * 1024 * 1024

/-- Type inference of `uploadFile` (documentService.ts 262-284). -/
def inferUploadType (file : BrowserFile) : String :=
  if jsIncludes file.type "pdf" then "pdf"
  else if jsIncludes file.type "doc" then "doc"
  else if jsIncludes file.type "image" then "image"
  else if jsIncludes file.type "markdown" || jsEndsWith file.name ".md"
      || jsEndsWith file.name ".markdown" then "markdown"
  else if jsIncludes file.type "text" || jsEndsWith file.name ".txt"
      || jsEndsWith file.name ".json" then "text"
  else "other"

/-- What `uploadFile` does before touching the network. -/
inductive UploadFirstStep where
  /-- A rejection surfaced before any transfer (never produced by the
  source — the constructor exists so that the specified behaviour is
  statable). -/
  | rejectedForSize
  /-- The storage upload of the blob (`supabase.storage.upload`,
  documentService.ts 292-302) for a document of the inferred type. -/
  | storageUpload (docType : String)
deriving DecidableEq

/-- The pre-network control flow of `uploadFile` (documentService.ts
259-337): the function computes the document type, colour and file name
and then immediately issues the storage upload.  It contains no size
comparison — `MAX_FILE_SIZE` is declared in the service but never read
there — so the first external operation is the transfer, for every
file. -/
def uploadFileFirstStep (file : BrowserFile) : UploadFirstStep :=
  .storageUpload (inferUploadType file)

/-- The `selectedFile`/`error` slice of the UploadModal state. -/
structure UploadModalState where
  selectedFile : Option BrowserFile
  errorMessage : Option String
deriving DecidableEq

/-- `onDrop` (UploadModal, lines 66-76): with at least one accepted
file, a file above `MAX_FILE_SIZE` only sets the error message and
returns — the selection is left unchanged and no upload is started;
otherwise the file becomes the selection and the error is cleared. -/
def onDrop (acceptedFiles : List BrowserFile) (st : UploadModalState) :
    UploadModalState :=
  match acceptedFiles with
  | [] => st
  | file :: _ =>
      if file.size > MAX_FILE_SIZE then
        { st with errorMessage := some "File exceeds the 10MB limit" }
      else
        { selectedFile := some file, errorMessage := none }

/-! ## Preview classification (DocumentViewer.loadDocument dispatch) -/

/-- Render modes of the preview resolver (spec section 4.3). -/
inductive RenderMode where
  | inlineText
  | markdown
  | plainText
  | image
  | pdf
  | unsupported
deriving DecidableEq

/-- `sp?.endsWith(suffix)` — an absent storage path is falsy. -/
def optEndsWith (sp : Option String) (suffix : String) : Bool :=
  match sp with
  | none => false
  | some s => jsEndsWith s suffix

/-- The content-type dispatch of `DocumentViewer.loadDocument`
(lines 79 and 110-142 of the viewer): `article` renders the inline
content; otherwise `pdf`, then `image`, are checked by exact type
before the markdown test (`type.includes('markdown') ||
storagePath?.endsWith('.md')`) and the text test
(`type.includes('text') || storagePath?.endsWith('.txt') ||
storagePath?.endsWith('.json')`); anything left renders the unsupported
fallback.  The mode is a pure function of `type` and `storagePath`;
the network is used only to obtain the payload once the mode is known. -/
def classify (type : String) (storagePath : Option String) : RenderMode :=
  if type == "article" then .inlineText
  else if type == "pdf" then .pdf
  else if type == "image" then .image
  else if jsIncludes type "markdown" || optEndsWith storagePath ".md" then .markdown
  else if jsIncludes type "text" || optEndsWith storagePath ".txt"
      || optEndsWith storagePath ".json" then .plainText
  else .unsupported

/-! ## Helper lemmas: pipeline stages are sublists and act as the
identity on (sublists of) their own output -/

theorem applySearch_sublist (q : String) (docs : List Document) :
    List.Sublist (applySearch q docs) docs := by
  unfold applySearch
  split
  · exact List.filter_sublist docs
  · exact List.Sublist.refl docs

theorem applyTypes_sublist (types : List String) (docs : List Document) :
    List.Sublist (applyTypes types docs) docs := by
  unfold applyTypes
  split
  · exact List.filter_sublist docs
  · exact List.Sublist.refl docs

theorem applyCategories_sublist (categories : List String) (docs : List Document) :
    List.Sublist (applyCategories categories docs) docs := by
  unfold applyCategories
  split
  · exact List.filter_sublist docs
  · exact List.Sublist.refl docs

theorem applyTags_sublist (tags : List String) (docs : List Document) :
    List.Sublist (applyTags tags docs) docs := by
  unfold applyTags
  split
  · exact List.filter_sublist docs
  · exact List.Sublist.refl docs

theorem applyTimeframe_sublist (tf : Timeframe) (startOfToday : Int)
    (docs : List Document) :
    List.Sublist (applyTimeframe tf startOfToday docs) docs := by
  cases tf
  · exact List.Sublist.refl docs
  · exact List.filter_sublist docs
  · exact List.filter_sublist docs
  · exact List.filter_sublist docs

theorem filter_eq_self_of_sublist {p : Document → Bool} {y l : List Document}
    (h : List.Sublist y (l.filter p)) : y.filter p = y :=
  List.filter_eq_self.mpr fun _ hx => (List.mem_filter.mp (h.subset hx)).2

theorem sortByDateDesc_sorted (docs : List Document) :
    List.Sorted dateGE (sortByDateDesc docs) :=
  List.sorted_insertionSort dateGE docs

theorem applySection_eq_self {s : CurrentSection} {y l : List Document}
    (h : List.Sublist y (applySection s l)) : applySection s y = y := by
  cases s with
  | files => rfl
  | favorites => exact filter_eq_self_of_sublist h
  | articles => exact filter_eq_self_of_sublist h
  | recent =>
      have hsorted : List.Sorted dateGE y :=
        List.Pairwise.sublist (h.trans (List.take_sublist 6 _))
          (sortByDateDesc_sorted l)
      have hlen : y.length ≤ 6 :=
        le_trans h.length_le
          (by show ((sortByDateDesc l).take 6).length ≤ 6
              rw [List.length_take]
              exact min_le_left _ _)
      show (sortByDateDesc y).take 6 = y
      rw [show sortByDateDesc y = y from List.Sorted.insertionSort_eq hsorted,
        List.take_of_length_le hlen]

theorem applySearch_eq_self {q : String} {y l : List Document}
    (h : List.Sublist y (applySearch q l)) : applySearch q y = y := by
  by_cases hq : (q != "") = true
  · simp only [applySearch, if_pos hq] at h ⊢
    exact filter_eq_self_of_sublist h
  · simp only [applySearch, if_neg hq]

theorem applyTypes_eq_self {types : List String} {y l : List Document}
    (h : List.Sublist y (applyTypes types l)) : applyTypes types y = y := by
  by_cases ht : types.length > 0
  · simp only [applyTypes, if_pos ht] at h ⊢
    exact filter_eq_self_of_sublist h
  · simp only [applyTypes, if_neg ht]

theorem applyCategories_eq_self {categories : List String} {y l : List Document}
    (h : List.Sublist y (applyCategories categories l)) :
    applyCategories categories y = y := by
  by_cases hc : categories.length > 0
  · simp only [applyCategories, if_pos hc] at h ⊢
    exact filter_eq_self_of_sublist h
  · simp only [applyCategories, if_neg hc]

theorem applyTags_eq_self {tags : List String} {y l : List Document}
    (h : List.Sublist y (applyTags tags l)) : applyTags tags y = y := by
  by_cases ht : tags.length > 0
  · simp only [applyTags, if_pos ht] at h ⊢
    exact filter_eq_self_of_sublist h
  · simp only [applyTags, if_neg ht]

theorem applyTimeframe_eq_self {tf : Timeframe} {startOfToday : Int}
    {y l : List Document}
    (h : List.Sublist y (applyTimeframe tf startOfToday l)) :
    applyTimeframe tf startOfToday y = y := by
  cases tf
  · rfl
  · exact filter_eq_self_of_sublist h
  · exact filter_eq_self_of_sublist h
  · exact filter_eq_self_of_sublist h

/-! ## Helper lemmas: stability of the `recent` sort -/

/-- The documents of `docs` carrying the date key `k`, in order; a sort
is stable iff it preserves `filterKey k` for every `k`. -/
def filterKey (k : Int) (docs : List Document) : List Document :=
  docs.filter (fun d => decide (d.dateAdded = k))

theorem filterKey_orderedInsert (a : Document) (l : List Document) (k : Int) :
    filterKey k (List.orderedInsert dateGE a l)
      = if a.dateAdded = k then a :: filterKey k l else filterKey k l := by
  induction l with
  | nil =>
      by_cases h : a.dateAdded = k <;> simp [filterKey, List.orderedInsert, h]
  | cons b l ih =>
      by_cases hr : dateGE a b
      · simp only [List.orderedInsert, if_pos hr]
        by_cases ha : a.dateAdded = k <;> simp [filterKey, List.filter_cons, ha]
      · simp only [List.orderedInsert, if_neg hr]
        by_cases ha : a.dateAdded = k
        · have hbk : ¬ (b.dateAdded = k) := by
            unfold dateGE at hr; omega
          simp [filterKey, List.filter_cons, hbk, ha, ih] at ih ⊢
          exact ih
        · simp only [filterKey, List.filter_cons] at ih ⊢
          simp only [ha, if_false] at ih ⊢
          by_cases hb : b.dateAdded = k <;> simp [hb, ih]

theorem filterKey_sortByDateDesc (docs : List Document) (k : Int) :
    filterKey k (sortByDateDesc docs) = filterKey k docs := by
  unfold sortByDateDesc
  induction docs with
  | nil => rfl
  | cons a l ih =>
      show filterKey k (List.orderedInsert dateGE a (List.insertionSort dateGE l))
        = filterKey k (a :: l)
      rw [filterKey_orderedInsert, ih]
      by_cases ha : a.dateAdded = k <;> simp [filterKey, List.filter_cons, ha]

theorem sortByDateDesc_perm (docs : List Document) :
    (sortByDateDesc docs).Perm docs :=
  List.perm_insertionSort dateGE docs

/-! ## Helper lemmas: first-occurrence deduplication -/

theorem mem_dedupFirstAux {a : String} :
    ∀ {l seen : List String}, a ∈ dedupFirstAux seen l ↔ a ∈ l ∧ a ∉ seen := by
  intro l
  induction l with
  | nil => intro seen; simp [dedupFirstAux]
  | cons x rest ih =>
      intro seen
      by_cases hx : x ∈ seen
      · simp only [dedupFirstAux, if_pos hx, ih, List.mem_cons]
        constructor
        · rintro ⟨hr, hs⟩; exact ⟨Or.inr hr, hs⟩
        · rintro ⟨hor, hs⟩
          rcases hor with he | hr
          · exact absurd (he ▸ hx) hs
          · exact ⟨hr, hs⟩
      · simp only [dedupFirstAux, if_neg hx, List.mem_cons, ih]
        constructor
        · rintro (he | ⟨hr, hns⟩)
          · exact ⟨Or.inl he, he ▸ hx⟩
          · exact ⟨Or.inr hr, fun hs => hns (Or.inr hs)⟩
        · rintro ⟨hor, hs⟩
          by_cases he : a = x
          · exact Or.inl he
          · rcases hor with he2 | hr
            · exact absurd he2 he
            · refine Or.inr ⟨hr, fun hmem => ?_⟩
              rcases hmem with he2 | hs2
              · exact he he2
              · exact hs hs2

theorem nodup_dedupFirstAux :
    ∀ (l : List String) {seen : List String}, (dedupFirstAux seen l).Nodup := by
  intro l
  induction l with
  | nil => intro seen; simp [dedupFirstAux]
  | cons x rest ih =>
      intro seen
      by_cases hx : x ∈ seen
      · simpa only [dedupFirstAux, if_pos hx] using ih
      · simp only [dedupFirstAux, if_neg hx]
        refine List.nodup_cons.mpr ⟨fun hmem => ?_, ih⟩
        exact (mem_dedupFirstAux.mp hmem).2 (List.mem_cons_self x seen)

theorem sublist_dedupFirstAux :
    ∀ (l : List String) {seen : List String}, List.Sublist (dedupFirstAux seen l) l := by
  intro l
  induction l with
  | nil => intro seen; simp [dedupFirstAux]
  | cons x rest ih =>
      intro seen
      by_cases hx : x ∈ seen
      · simpa only [dedupFirstAux, if_pos hx] using List.Sublist.cons x ih
      · simpa only [dedupFirstAux, if_neg hx] using List.Sublist.cons₂ x ih

theorem pairwise_idx_dedupFirstAux :
    ∀ (l : List String) {seen : List String},
      (dedupFirstAux seen l).Pairwise (fun a b => idx a l < idx b l) := by
  intro l
  induction l with
  | nil => intro seen; simp [dedupFirstAux]
  | cons x rest ih =>
      intro seen
      by_cases hx : x ∈ seen
      · simp only [dedupFirstAux, if_pos hx]
        refine List.Pairwise.imp_of_mem ?_ ih
        intro a b ha hb hab
        have hax : ¬ (x = a) := fun he =>
          (mem_dedupFirstAux.mp ha).2 (he ▸ hx)
        have hbx : ¬ (x = b) := fun he =>
          (mem_dedupFirstAux.mp hb).2 (he ▸ hx)
        simpa [idx, hax, hbx] using hab
      · simp only [dedupFirstAux, if_neg hx]
        refine List.pairwise_cons.mpr ⟨fun b hb => ?_, ?_⟩
        · have hbx : ¬ (x = b) := fun he =>
            (mem_dedupFirstAux.mp hb).2 (he ▸ List.mem_cons_self x seen)
          simp [idx, hbx]
        · refine List.Pairwise.imp_of_mem ?_ ih
          intro a b ha hb hab
          have hax : ¬ (x = a) := fun he =>
            (mem_dedupFirstAux.mp ha).2 (he ▸ List.mem_cons_self x seen)
          have hbx : ¬ (x = b) := fun he =>
            (mem_dedupFirstAux.mp hb).2 (he ▸ List.mem_cons_self x seen)
          simpa [idx, hax, hbx] using hab

theorem mem_dedupFirst {a : String} {l : List String} :
    a ∈ dedupFirst l ↔ a ∈ l := by
  unfold dedupFirst
  rw [mem_dedupFirstAux]
  simp

theorem nodup_dedupFirst (l : List String) : (dedupFirst l).Nodup :=
  nodup_dedupFirstAux l

theorem pairwise_idx_dedupFirst (l : List String) :
    (dedupFirst l).Pairwise (fun a b => idx a l < idx b l) :=
  pairwise_idx_dedupFirstAux l

/-! ## Concrete documents used in the instance theorems -/

/-- A concrete document with all fields defaulted; the instance theorems
below override the fields they are about. -/
def exampleDoc : Document :=
  { id := 0, title := "", type := "other", tags := [], dateAdded := 0,
    favorite := false, category := "", backgroundColor := "#E3F2FD",
    content := none, storagePath := none }

/-! ## Claim theorems -/

/-- C1: for every input document list, section `recent` sorts by
`dateAdded` descending with ties broken by original relative order
(stable sort: the sort is a permutation, is sorted, and preserves the
ordered sequence of documents of every fixed date key) and truncates to
the first 6; hence the filter result for section `recent` — for every
query and options — has at most 6 documents and is sorted descending by
`dateAdded`, regardless of input size. -/
theorem recent_filter_sorted_truncated :
    (∀ (docs : List Document) (query : String) (opts : FilterOptions)
        (startOfToday : Int),
        (filterDocuments docs .recent query opts startOfToday).length ≤ 6 ∧
        List.Sorted dateGE (filterDocuments docs .recent query opts startOfToday)) ∧
    (∀ docs : List Document,
        applySection .recent docs = (sortByDateDesc docs).take 6) ∧
    (∀ docs : List Document,
        (sortByDateDesc docs).Perm docs ∧
        List.Sorted dateGE (sortByDateDesc docs) ∧
        ∀ k : Int, filterKey k (sortByDateDesc docs) = filterKey k docs) := by
  refine ⟨?_, fun docs => rfl,
    fun docs => ⟨sortByDateDesc_perm docs, sortByDateDesc_sorted docs,
      fun k => filterKey_sortByDateDesc docs k⟩⟩
  intro docs query opts startOfToday
  have h1 : List.Sublist (filterDocuments docs .recent query opts startOfToday)
      (applySection .recent docs) :=
    ((((applyTimeframe_sublist _ _ _).trans (applyTags_sublist _ _)).trans
      (applyCategories_sublist _ _)).trans (applyTypes_sublist _ _)).trans
      (applySearch_sublist _ _)
  constructor
  · exact h1.length_le.trans
      (by show ((sortByDateDesc docs).take 6).length ≤ 6
          rw [List.length_take]
          exact min_le_left _ _)
  · exact List.Pairwise.sublist (h1.trans (List.take_sublist 6 _))
      (sortByDateDesc_sorted docs)

/-- C2: with section `files`, an empty query and the default filter
options, the filter returns exactly the input documents in their
original order. -/
theorem files_default_filter_identity :
    ∀ (docs : List Document) (startOfToday : Int),
      filterDocuments docs .files "" defaultFilters startOfToday = docs := by
  intro docs startOfToday
  rfl

/-- C3: the filter is idempotent — applying `filterDocuments` again to
its own result, with the same section, query, options and evaluation
time, returns the same list.  (The source copies the input with
`[...documents]` before the in-place sort, so the input list is never
mutated; in the pure embedding freedom from side effects is inherent.) -/
theorem filterDocuments_idempotent :
    ∀ (docs : List Document) (section_ : CurrentSection) (query : String)
      (opts : FilterOptions) (startOfToday : Int),
      filterDocuments (filterDocuments docs section_ query opts startOfToday)
          section_ query opts startOfToday
        = filterDocuments docs section_ query opts startOfToday := by
  intro docs s q o t
  have h6 : List.Sublist (filterDocuments docs s q o t)
      (applyTags o.tags (applyCategories o.categories
        (applyTypes o.types (applySearch q (applySection s docs))))) :=
    applyTimeframe_sublist _ _ _
  have h5 := h6.trans (applyTags_sublist _ _)
  have h4 := h5.trans (applyCategories_sublist _ _)
  have h3 := h4.trans (applyTypes_sublist _ _)
  have h2 := h3.trans (applySearch_sublist _ _)
  show applyTimeframe o.timeframe t (applyTags o.tags (applyCategories o.categories
      (applyTypes o.types (applySearch q
        (applySection s (filterDocuments docs s q o t))))))
    = filterDocuments docs s q o t
  rw [applySection_eq_self h2, applySearch_eq_self h3, applyTypes_eq_self h4,
    applyCategories_eq_self h5, applyTags_eq_self h6]
  exact applyTimeframe_eq_self (List.Sublist.refl _)

/-- C9: the timeframe stage keeps exactly the documents with
`dateAdded ≥ startOfToday` (`today`), resp. `≥ startOfToday − 7×24h`
(`thisWeek`), resp. `≥ startOfToday − 30×24h` (`thisMonth`) — fixed
windows, not calendar-aware; and a document dated exactly 25 hours
before "now" is excluded by `today` whenever "now" is one hour after
local midnight (its date is then `startOfToday − 24h`). -/
theorem timeframe_window_semantics :
    (∀ (docs : List Document) (startOfToday : Int) (d : Document),
        (d ∈ applyTimeframe .today startOfToday docs ↔
          d ∈ docs ∧ startOfToday ≤ d.dateAdded) ∧
        (d ∈ applyTimeframe .thisWeek startOfToday docs ↔
          d ∈ docs ∧ startOfToday - 7 * msPerDay ≤ d.dateAdded) ∧
        (d ∈ applyTimeframe .thisMonth startOfToday docs ↔
          d ∈ docs ∧ startOfToday - 30 * msPerDay ≤ d.dateAdded)) ∧
    (∀ startOfToday : Int,
        applyTimeframe .today startOfToday
          [{ exampleDoc with
              dateAdded := (startOfToday + 3600000) - 90000000 }] = []) := by
  constructor
  · intro docs startOfToday d
    refine ⟨?_, ?_, ?_⟩ <;> simp [applyTimeframe, List.mem_filter]
  · intro startOfToday
    have hlt : ¬ (startOfToday ≤ (startOfToday + 3600000) - 90000000) := by omega
    simp [applyTimeframe, List.filter, hlt]

/-! ## Helper lemmas: sidebar handlers and the `all` sentinel -/

theorem handleTypeChange_categories (typeId : String) (checked : Bool)
    (f : FilterOptions) :
    (handleTypeChange typeId checked f).categories = f.categories := by
  unfold handleTypeChange
  split
  · rfl
  · cases checked <;> rfl

theorem handleCategoryChange_types (category : String) (checked : Bool)
    (f : FilterOptions) :
    (handleCategoryChange category checked f).types = f.types := by
  unfold handleCategoryChange
  split
  · rfl
  · cases checked <;> rfl

theorem handleTypeChange_types_inv (typeId : String) (checked : Bool)
    (f : FilterOptions) :
    (handleTypeChange typeId checked f).types = ["all"] ∨
      "all" ∉ (handleTypeChange typeId checked f).types := by
  unfold handleTypeChange
  by_cases hall : typeId = "all"
  · rw [if_pos hall]
    cases checked
    · right; simp
    · left; rfl
  · rw [if_neg hall]
    cases checked
    · right
      intro hmem
      have h1 := (List.mem_filter.mp ((List.mem_filter.mp hmem).1)).2
      simp at h1
    · right
      intro hmem
      rcases List.mem_append.mp hmem with h1 | h2
      · have h3 := (List.mem_filter.mp h1).2
        simp at h3
      · rw [List.mem_singleton] at h2
        exact hall h2.symm

theorem handleCategoryChange_categories_inv (category : String) (checked : Bool)
    (f : FilterOptions) :
    (handleCategoryChange category checked f).categories = ["all"] ∨
      "all" ∉ (handleCategoryChange category checked f).categories := by
  unfold handleCategoryChange
  by_cases hall : category = "all"
  · rw [if_pos hall]
    cases checked
    · right; simp
    · left; rfl
  · rw [if_neg hall]
    cases checked
    · right
      intro hmem
      have h1 := (List.mem_filter.mp ((List.mem_filter.mp hmem).1)).2
      simp at h1
    · right
      intro hmem
      rcases List.mem_append.mp hmem with h1 | h2
      · have h3 := (List.mem_filter.mp h1).2
        simp at h3
      · rw [List.mem_singleton] at h2
        exact hall h2.symm

theorem stepFilters_sentinel {f : FilterOptions} (e : FilterEvent)
    (ht : f.types = ["all"] ∨ "all" ∉ f.types)
    (hc : f.categories = ["all"] ∨ "all" ∉ f.categories) :
    ((stepFilters f e).types = ["all"] ∨ "all" ∉ (stepFilters f e).types) ∧
    ((stepFilters f e).categories = ["all"] ∨
      "all" ∉ (stepFilters f e).categories) := by
  cases e with
  | typeChange typeId checked =>
      refine ⟨handleTypeChange_types_inv typeId checked f, ?_⟩
      show (handleTypeChange typeId checked f).categories = ["all"] ∨
        "all" ∉ (handleTypeChange typeId checked f).categories
      rw [handleTypeChange_categories]
      exact hc
  | categoryChange category checked =>
      refine ⟨?_, handleCategoryChange_categories_inv category checked f⟩
      show (handleCategoryChange category checked f).types = ["all"] ∨
        "all" ∉ (handleCategoryChange category checked f).types
      rw [handleCategoryChange_types]
      exact ht
  | timeChange timeId => exact ⟨ht, hc⟩
  | tagClick tag =>
      constructor
      · rcases ht with h | h
        · left
          show (handleTagClick tag f).types = ["all"]
          unfold handleTagClick
          split <;> exact h
        · right
          show "all" ∉ (handleTagClick tag f).types
          unfold handleTagClick
          split <;> exact h
      · rcases hc with h | h
        · left
          show (handleTagClick tag f).categories = ["all"]
          unfold handleTagClick
          split <;> exact h
        · right
          show "all" ∉ (handleTagClick tag f).categories
          unfold handleTagClick
          split <;> exact h
  | clearAll =>
      refine ⟨Or.inr ?_, Or.inr ?_⟩
      · show "all" ∉ defaultFilters.types
        decide
      · show "all" ∉ defaultFilters.categories
        decide

/-- C10: after any sequence of sidebar interactions starting from the
initial App.tsx filter state, the `all` sentinel never coexists with
another selected value: `types` is `["all"]` exactly, or does not
contain `"all"` at all (so it is empty or a list of concrete types), and
the same holds for `categories`. -/
theorem sidebar_all_sentinel_invariant :
    ∀ events : List FilterEvent,
      ((runFilters events).types = ["all"] ∨
        "all" ∉ (runFilters events).types) ∧
      ((runFilters events).categories = ["all"] ∨
        "all" ∉ (runFilters events).categories) := by
  intro events
  suffices h : ∀ (f : FilterOptions),
      (f.types = ["all"] ∨ "all" ∉ f.types) →
      (f.categories = ["all"] ∨ "all" ∉ f.categories) →
      ((events.foldl stepFilters f).types = ["all"] ∨
        "all" ∉ (events.foldl stepFilters f).types) ∧
      ((events.foldl stepFilters f).categories = ["all"] ∨
        "all" ∉ (events.foldl stepFilters f).categories) by
    exact h defaultFilters (Or.inr (by simp [defaultFilters]))
      (Or.inr (by simp [defaultFilters]))
  induction events with
  | nil => intro f ht hc; exact ⟨ht, hc⟩
  | cons e evs ih =>
      intro f ht hc
      have hstep := stepFilters_sentinel e ht hc
      exact ih (stepFilters f e) hstep.1 hstep.2

/-! ## Helper lemmas: raw category / tag collections -/

theorem contains_iff_mem {l : List String} {a : String} :
    l.contains a = true ↔ a ∈ l :=
  List.elem_iff

theorem mem_rawCategories {c : String} {docs : List Document} :
    c ∈ rawCategories docs ↔ (∃ d ∈ docs, d.category = c) ∧ c ≠ "" := by
  simp [rawCategories, List.mem_filter, List.mem_map]

/-! ## Claim theorems (continued) -/

/-- C4 counterexample: `uploadFile` itself performs no size check — for
the 11 MiB file below, which exceeds `MAX_FILE_SIZE`, the first external
operation of `uploadFile` is already the storage transfer of the blob,
not a rejection. -/
theorem uploadFile_no_size_gate :
    (11 * 1024 * 1024 : Nat) > MAX_FILE_SIZE ∧
    uploadFileFirstStep
        { name := "big.pdf", type := "application/pdf", size := 11 * 1024 * 1024 }
      = UploadFirstStep.storageUpload "pdf" ∧
    uploadFileFirstStep
        { name := "big.pdf", type := "application/pdf", size := 11 * 1024 * 1024 }
      ≠ UploadFirstStep.rejectedForSize := by
  refine ⟨by norm_num [MAX_FILE_SIZE], by decide, by decide⟩

/-- C4 amended: the 10 MiB ceiling is enforced in the UploadModal, not
in `uploadFile`: `onDrop` refuses to select any file larger than
`MAX_FILE_SIZE`, setting the inline message "File exceeds the 10MB
limit" and leaving the selection unchanged, so the upload (and hence any
network transfer) is never started for such a file through the upload
UI; there is no `SizeLimitError` type. -/
theorem upload_size_gate_in_modal (file : BrowserFile)
    (rest : List BrowserFile) (st : UploadModalState)
    (h : file.size > MAX_FILE_SIZE) :
    onDrop (file :: rest) st
      = { st with errorMessage := some "File exceeds the 10MB limit" } ∧
    (onDrop (file :: rest) st).selectedFile = st.selectedFile := by
  have e : onDrop (file :: rest) st
      = { st with errorMessage := some "File exceeds the 10MB limit" } := by
    simp [onDrop, if_pos h]
  exact ⟨e, by rw [e]⟩

/-- Witness for the amended C4 at the 11 MiB file: the modal refuses the
selection and only records the error message. -/
theorem upload_size_gate_in_modal_instance :
    onDrop [{ name := "big.pdf", type := "application/pdf",
              size := 11 * 1024 * 1024 }]
        { selectedFile := none, errorMessage := none }
      = { selectedFile := none,
          errorMessage := some "File exceeds the 10MB limit" } :=
  (upload_size_gate_in_modal
    { name := "big.pdf", type := "application/pdf", size := 11 * 1024 * 1024 }
    [] { selectedFile := none, errorMessage := none }
    (by norm_num [MAX_FILE_SIZE])).1

/-- C5 counterexample: with the category filter set `["uncategorized"]`,
a document whose category is the literal string `"uncategorized"` — a
non-empty category, matched by no element of the set other than the
sentinel itself — is nevertheless kept, because the direct membership
test `filters.categories.includes(doc.category)` fires. -/
theorem uncategorized_sentinel_collision :
    applyCategories ["uncategorized"]
        [{ exampleDoc with category := "uncategorized" }]
      = [{ exampleDoc with category := "uncategorized" }] ∧
    ({ exampleDoc with category := "uncategorized" } : Document).category
      ≠ "" := by
  refine ⟨by decide, by decide⟩

/-- C5 amended: when the category filter set is non-empty and contains
the `"uncategorized"` sentinel, the stage keeps exactly the documents
whose category is empty/absent, or whose category value is itself an
element of the set (including the literal string `"uncategorized"`), or
everything when `"all"` is present. -/
theorem uncategorized_sentinel_semantics (cats : List String)
    (docs : List Document) (d : Document)
    (hne : cats ≠ []) (hu : "uncategorized" ∈ cats) :
    d ∈ applyCategories cats docs ↔
      d ∈ docs ∧ (d.category = "" ∨ d.category ∈ cats ∨ "all" ∈ cats) := by
  have hlen : cats.length > 0 := List.length_pos.mpr hne
  simp only [applyCategories, if_pos hlen, List.mem_filter,
    Bool.or_eq_true, Bool.and_eq_true, contains_iff_mem, beq_iff_eq, hu,
    decide_eq_true_eq]
  tauto

/-- Witness for the amended C5: a document with empty category is kept
by the `"uncategorized"` sentinel. -/
theorem uncategorized_sentinel_semantics_instance :
    exampleDoc ∈ applyCategories ["uncategorized"] [exampleDoc] :=
  (uncategorized_sentinel_semantics ["uncategorized"] [exampleDoc] exampleDoc
    (by decide) (by decide)).mpr ⟨List.mem_singleton.mpr rfl, Or.inl rfl⟩

/-! ## C6: the search scenario documents

The spec scenario fixes `id`, `type`, `favorite` and `dateAdded` of the
two documents and leaves the searchable fields open; they are taken as
parameters, constrained exactly as the scenario requires (document 2
matches the query on title/tags/category, document 1 does not). -/

/-- `{id:1, type:"article", favorite:true, dateAdded:"2024-01-01"}`
(epoch 1704067200000). -/
def scenarioDoc1 (title : String) (tags : List String) (category : String) :
    Document :=
  { id := 1, title := title, type := "article", tags := tags,
    dateAdded := 1704067200000, favorite := true, category := category,
    backgroundColor := "#E3F2FD", content := some "essay text",
    storagePath := none }

/-- `{id:2, type:"pdf", favorite:false, dateAdded:"2024-06-01"}`
(epoch 1717200000000). -/
def scenarioDoc2 (title : String) (tags : List String) (category : String) :
    Document :=
  { id := 2, title := title, type := "pdf", tags := tags,
    dateAdded := 1717200000000, favorite := false, category := category,
    backgroundColor := "#FFEBEE", content := none,
    storagePath := some "file.pdf" }

/-- C6: on the two scenario documents, the filter with section `files`,
query `"pdf"` and default options returns exactly the pdf document — the
one whose title/tags/category match `"pdf"` case-insensitively. -/
theorem search_pdf_scenario (t1 t2 : String) (tg1 tg2 : List String)
    (c1 c2 : String) (startOfToday : Int)
    (h2 : matchesQuery "pdf" (scenarioDoc2 t2 tg2 c2) = true)
    (h1 : matchesQuery "pdf" (scenarioDoc1 t1 tg1 c1) = false) :
    filterDocuments [scenarioDoc1 t1 tg1 c1, scenarioDoc2 t2 tg2 c2]
        .files "pdf" defaultFilters startOfToday
      = [scenarioDoc2 t2 tg2 c2] := by
  simp [filterDocuments, applySection, applySearch, applyTypes,
    applyCategories, applyTags, applyTimeframe, defaultFilters,
    List.filter_cons, h1, h2]

/-- Witness for C6: with title "PDF Handbook" (matching only through the
case-insensitive title match) against "Essay One", the result is exactly
the pdf document. -/
theorem search_pdf_scenario_instance :
    filterDocuments
        [scenarioDoc1 "Essay One" [] "", scenarioDoc2 "PDF Handbook" [] ""]
        .files "pdf" defaultFilters 0
      = [scenarioDoc2 "PDF Handbook" [] ""] :=
  search_pdf_scenario "Essay One" "PDF Handbook" [] [] "" "" 0
    (by decide) (by decide)

/-- C7 counterexample: the viewer checks `pdf` and `image` by exact type
before the markdown test, so a non-article document whose `storagePath`
ends with `.md` but whose type is `image` renders as an image, not as
markdown — against the claimed rule order. -/
theorem classify_markdown_order_counterexample :
    classify "image" (some "photo.md") = RenderMode.image ∧
    RenderMode.image ≠ RenderMode.markdown := by
  refine ⟨by decide, by decide⟩

/-- C7 amended: the classification is a pure function of `type` and
`storagePath` (the embedding `classify` takes nothing else), with rules
evaluated in order: `article` → InlineText, then `pdf` → Pdf, then
`image` → Image, then markdown (`type` contains "markdown" OR
`storagePath` ends with `.md`) → Markdown, then text (`type` contains
"text" OR `storagePath` ends with `.txt`/`.json`) → PlainText, else
Unsupported; in particular every non-article, non-pdf, non-image
document whose `storagePath` ends with `.md` gets mode Markdown. -/
theorem classify_dispatch_rules :
    (∀ sp : Option String, classify "article" sp = RenderMode.inlineText) ∧
    (∀ sp : Option String, classify "pdf" sp = RenderMode.pdf) ∧
    (∀ sp : Option String, classify "image" sp = RenderMode.image) ∧
    (∀ (ty : String) (sp : Option String),
      ty ≠ "article" → ty ≠ "pdf" → ty ≠ "image" →
      (jsIncludes ty "markdown" || optEndsWith sp ".md") = true →
      classify ty sp = RenderMode.markdown) ∧
    (∀ (ty : String) (sp : Option String),
      ty ≠ "article" → ty ≠ "pdf" → ty ≠ "image" →
      (jsIncludes ty "markdown" || optEndsWith sp ".md") = false →
      (jsIncludes ty "text" || optEndsWith sp ".txt"
          || optEndsWith sp ".json") = true →
      classify ty sp = RenderMode.plainText) ∧
    (∀ (ty : String) (sp : Option String),
      ty ≠ "article" → ty ≠ "pdf" → ty ≠ "image" →
      (jsIncludes ty "markdown" || optEndsWith sp ".md") = false →
      (jsIncludes ty "text" || optEndsWith sp ".txt"
          || optEndsWith sp ".json") = false →
      classify ty sp = RenderMode.unsupported) := by
  refine ⟨fun sp => rfl, fun sp => rfl, fun sp => rfl, ?_, ?_, ?_⟩
  · intro ty sp ha hp hi hmd
    have e1 : (ty == "article") = false := beq_eq_false_iff_ne.mpr ha
    have e2 : (ty == "pdf") = false := beq_eq_false_iff_ne.mpr hp
    have e3 : (ty == "image") = false := beq_eq_false_iff_ne.mpr hi
    simp [classify, e1, e2, e3, hmd]
  · intro ty sp ha hp hi hmd htx
    have e1 : (ty == "article") = false := beq_eq_false_iff_ne.mpr ha
    have e2 : (ty == "pdf") = false := beq_eq_false_iff_ne.mpr hp
    have e3 : (ty == "image") = false := beq_eq_false_iff_ne.mpr hi
    simp [classify, e1, e2, e3, hmd, htx]
  · intro ty sp ha hp hi hmd htx
    have e1 : (ty == "article") = false := beq_eq_false_iff_ne.mpr ha
    have e2 : (ty == "pdf") = false := beq_eq_false_iff_ne.mpr hp
    have e3 : (ty == "image") = false := beq_eq_false_iff_ne.mpr hi
    simp [classify, e1, e2, e3, hmd, htx]

/-- Witness for the amended C7: a `doc`-typed file with an `.md` storage
path is Markdown, a `.json` one is PlainText, a `.docx` one is
Unsupported. -/
theorem classify_dispatch_rules_instance :
    classify "doc" (some "notes.md") = RenderMode.markdown ∧
    classify "doc" (some "data.json") = RenderMode.plainText ∧
    classify "doc" (some "file.docx") = RenderMode.unsupported :=
  ⟨classify_dispatch_rules.2.2.2.1 "doc" (some "notes.md")
      (by decide) (by decide) (by decide) (by decide),
    classify_dispatch_rules.2.2.2.2.1 "doc" (some "data.json")
      (by decide) (by decide) (by decide) (by decide) (by decide),
    classify_dispatch_rules.2.2.2.2.2 "doc" (some "file.docx")
      (by decide) (by decide) (by decide) (by decide) (by decide)⟩

/-- C8 counterexample: a document whose category is the literal string
`"all"` makes `getAvailableCategories` return the value `"all"` twice —
the sentinel prefix plus the real category — so the result can contain a
duplicated category value. -/
theorem availableCategories_duplicate_sentinel :
    getAvailableCategories [{ exampleDoc with category := "all" }]
      = ["all", "all", "uncategorized"] ∧
    ¬ (getAvailableCategories
        [{ exampleDoc with category := "all" }]).Nodup := by
  refine ⟨by decide, by decide⟩

/-- C8 amended: `getAvailableCategories` is the sentinel `"all"`, then
the distinct non-empty categories in first-seen order (no duplicates,
ordered by first occurrence, containing exactly the non-empty categories
of the input), then the sentinel `"uncategorized"`; the whole list is
duplicate-free provided no document category collides with a sentinel
string.  `getAvailableTags` is always duplicate-free, in first-seen
order, containing exactly the tags of the input. -/
theorem availableCollections_distinct :
    ∀ docs : List Document,
      getAvailableCategories docs
          = "all" :: dedupFirst (rawCategories docs) ++ ["uncategorized"] ∧
      (dedupFirst (rawCategories docs)).Nodup ∧
      (dedupFirst (rawCategories docs)).Pairwise
        (fun a b => idx a (rawCategories docs) < idx b (rawCategories docs)) ∧
      (∀ c, c ∈ dedupFirst (rawCategories docs) ↔
        (∃ d ∈ docs, d.category = c) ∧ c ≠ "") ∧
      ((∀ d ∈ docs, d.category ≠ "all" ∧ d.category ≠ "uncategorized") →
        (getAvailableCategories docs).Nodup) ∧
      (getAvailableTags docs).Nodup ∧
      (getAvailableTags docs).Pairwise
        (fun a b => idx a (rawTags docs) < idx b (rawTags docs)) ∧
      (∀ tag, tag ∈ getAvailableTags docs ↔ tag ∈ rawTags docs) := by
  intro docs
  refine ⟨rfl, nodup_dedupFirst _, pairwise_idx_dedupFirst _,
    fun c => mem_dedupFirst.trans mem_rawCategories, ?_,
    nodup_dedupFirst _, pairwise_idx_dedupFirst _,
    fun tag => mem_dedupFirst⟩
  intro h
  have hallm : "all" ∉ dedupFirst (rawCategories docs) := by
    intro hm
    obtain ⟨⟨d, hd, hdc⟩, _⟩ := mem_rawCategories.mp (mem_dedupFirst.mp hm)
    exact (h d hd).1 hdc
  have huncm : "uncategorized" ∉ dedupFirst (rawCategories docs) := by
    intro hm
    obtain ⟨⟨d, hd, hdc⟩, _⟩ := mem_rawCategories.mp (mem_dedupFirst.mp hm)
    exact (h d hd).2 hdc
  show ("all" :: dedupFirst (rawCategories docs) ++ ["uncategorized"]).Nodup
  refine List.nodup_cons.mpr ⟨?_, ?_⟩
  · intro hmem
    rcases List.mem_append.mp hmem with hm | hm
    · exact hallm hm
    · rw [List.mem_singleton] at hm
      exact absurd hm (by decide)
  · refine (nodup_dedupFirst _).append (List.nodup_singleton _) ?_
    intro a ha hb
    rw [List.mem_singleton] at hb
    exact huncm (hb ▸ ha)

/-- Documents for the C8 witness: three documents share the tag
`"design"`, two share the category `"work"`. -/
def demoDocs : List Document :=
  [{ exampleDoc with category := "work", tags := ["design"] },
   { exampleDoc with id := 1, category := "work", tags := ["design", "art"] },
   { exampleDoc with id := 2, category := "life", tags := ["design"] }]

/-- Witness for the amended C8: on `demoDocs` both derived collections
are duplicate-free. -/
theorem availableCollections_distinct_instance :
    (getAvailableCategories demoDocs).Nodup ∧
    (getAvailableTags demoDocs).Nodup := by
  have h := availableCollections_distinct demoDocs
  exact ⟨h.2.2.2.2.1 (by decide), h.2.2.2.2.2.1⟩
